import Mathlib

/-!
Verification of the `cratesiover` crate (src/src/lib.rs): a pipeline that
fetches a crate's metadata from crates.io, extracts the `max_version` field
from the response text, parses it as a semantic version and compares it with
a caller-supplied version.

The embedding is shallow: the pure functions of `lib.rs` (`parse`, `cmp`,
`get`, `query`, `output_with_term`, `web_req`) are translated to Lean
functions.  The HTTP transport (`reqwest`) is modelled as an oracle
(`Net`): a pair of functions giving the response for a URL and the body
text for a response.  The `semver` crate (a dependency, its code not part
of this repository) is modelled from the spec: `Version`, its parser and
its precedence ordering.  Strings are processed through their underlying
character lists with structural recursion so every definition evaluates.
-/

deriving instance DecidableEq for Except

namespace Cratesiover

/-- Splits a character list at every occurrence of `sep`, keeping empty
pieces — the behaviour of Rust's `str::split(char)` used by the extractor. -/
def splitCh (sep : Char) : List Char → List (List Char)
  | [] => [[]]
  | c :: cs =>
    if c = sep then
      [] :: splitCh sep cs
    else
      match splitCh sep cs with
      | t :: ts => (c :: t) :: ts
      | [] => [[c]]

/-- Index of the first element satisfying `p`, if any. -/
def firstIdx {α : Type} (p : α → Bool) : List α → Option Nat
  | [] => none
  | a :: t => if p a then some 0 else (firstIdx p t).map (· + 1)

/-- Lexicographic comparison of lists by an element comparator — the
behaviour of Rust's derived `Ord` on `Vec`. -/
def listCmp {α : Type} (f : α → α → Ordering) : List α → List α → Ordering
  | [], [] => .eq
  | [], _ :: _ => .lt
  | _ :: _, [] => .gt
  | a :: as, b :: bs => (f a b).then (listCmp f as bs)

/-- Modelled from the spec: a pre-release / build-metadata identifier of the
`semver` crate (a dependency whose code is not in src/): either a numeric
identifier or an alphanumeric one.  Numeric identifiers order before
alphanumeric ones. -/
inductive Identifier where
  | numeric (n : Nat)
  | alphaNum (s : List Char)
deriving DecidableEq

/-- Modelled from the spec: the `semver` crate's `Version` value —
`{major, minor, patch, pre-release identifiers, build metadata}`. -/
structure Version where
  major : Nat
  minor : Nat
  patch : Nat
  pre : List Identifier
  build : List Identifier
deriving DecidableEq

/-- Modelled from the spec: comparison of two identifiers — numeric ones
compare numerically and sort before alphanumeric ones, alphanumeric ones
compare lexicographically. -/
def Identifier.cmp : Identifier → Identifier → Ordering
  | .numeric a, .numeric b => compare a b
  | .numeric _, .alphaNum _ => .lt
  | .alphaNum _, .numeric _ => .gt
  | .alphaNum a, .alphaNum b => listCmp compare a b

/-- Modelled from the spec: pre-release comparison — a release (empty
pre-release list) sorts above any pre-release, otherwise identifiers are
compared lexicographically. -/
def preCmp : List Identifier → List Identifier → Ordering
  | [], [] => .eq
  | [], _ :: _ => .gt
  | _ :: _, [] => .lt
  | a :: as, b :: bs => listCmp Identifier.cmp (a :: as) (b :: bs)

/-- Modelled from the spec: the total order on versions used by
`current.cmp(&cratesio)` in the source — numeric comparison of
major/minor/patch, then pre-release precedence; build metadata is ignored. -/
def Version.cmp (a b : Version) : Ordering :=
  (compare a.major b.major).then
    ((compare a.minor b.minor).then
      ((compare a.patch b.patch).then (preCmp a.pre b.pre)))

/-- Numeric value of a digit string (most significant digit first). -/
def digitsVal (cs : List Char) : Nat :=
  cs.foldl (fun a c => a * 10 + (c.toNat - 48)) 0

/-- Parses a non-empty all-digit character list as a number. -/
def parseNum (cs : List Char) : Option Nat :=
  if cs ≠ [] ∧ cs.all (·.isDigit) then some (digitsVal cs) else none

/-- Characters allowed in a pre-release or build identifier: ASCII
alphanumerics and the hyphen. -/
def isIdentCh (c : Char) : Bool := c.isAlphanum || c = '-'

/-- Modelled from the spec: parsing one pre-release / build identifier —
non-empty, alphanumeric-or-hyphen characters, all-digit ones numeric. -/
def parseIdent (cs : List Char) : Option Identifier :=
  if cs ≠ [] ∧ cs.all isIdentCh then
    if cs.all (·.isDigit) then some (.numeric (digitsVal cs))
    else some (.alphaNum cs)
  else none

/-- Splits a character list at the first occurrence of `sep`, if present. -/
def breakAt (sep : Char) : List Char → Option (List Char × List Char)
  | [] => none
  | c :: cs =>
    if c = sep then some ([], cs)
    else (breakAt sep cs).map (fun p => (c :: p.1, p.2))

/-- Modelled from the spec: the `semver` crate's error type — a parse
failure carrying a message. -/
inductive SemVerError where
  | parseError (msg : String)
deriving DecidableEq

/-- Modelled from the spec: `Version::parse` of the `semver` crate (a
dependency whose code is not in src/) — accepts
`MAJOR.MINOR.PATCH[-PRERELEASE][+BUILD]`, rejecting non-numeric or missing
major/minor/patch components and malformed pre-release/build segments. -/
def Version.parse (s : String) : Except SemVerError Version :=
  let cs := s.data
  let bsplit : List Char × Option (List Char) :=
    match breakAt '+' cs with
    | some (a, b) => (a, some b)
    | none => (cs, none)
  let psplit : List Char × Option (List Char) :=
    match breakAt '-' bsplit.1 with
    | some (a, b) => (a, some b)
    | none => (bsplit.1, none)
  match splitCh '.' psplit.1 with
  | [ma, mi, pa] =>
    match parseNum ma, parseNum mi, parseNum pa with
    | some major, some minor, some patch =>
      let pres : Option (List Identifier) :=
        match psplit.2 with
        | none => some []
        | some p => (splitCh '.' p).mapM parseIdent
      let builds : Option (List Identifier) :=
        match bsplit.2 with
        | none => some []
        | some b => (splitCh '.' b).mapM parseIdent
      match pres, builds with
      | some pre, some build => .ok ⟨major, minor, patch, pre, build⟩
      | _, _ => .error (.parseError s)
    | _, _, _ => .error (.parseError s)
  | _ => .error (.parseError s)

/-- Embeds the `Status` enum of src/src/lib.rs: the comparative status of
the version query, each variant carrying the crates.io version number. -/
inductive Status where
  | Behind (v : Version)
  | Equal (v : Version)
  | Ahead (v : Version)
deriving DecidableEq

/-- Embeds the `Error` enum of src/src/lib.rs.  The `reqwest::Error`
payload of `RequestError` is opaque to this crate, so it is a type
parameter `ε`. -/
inductive Error (ε : Type) where
  | ParseError
  | SemVerError (e : Cratesiover.SemVerError)
  | RequestError (cause : ε)
deriving DecidableEq

/-- The quote-delimited token the extractor scans for. -/
def mvToken : List Char := "max_version".data

/-- Embeds `parse` of src/src/lib.rs (the response extractor):
`text.split('\x22').skip_while(|&x| x != "max_version").nth(2)`, returning
`Error::ParseError` when the iterator is exhausted. -/
def parse {ε : Type} (text : String) : Except (Error ε) String :=
  match ((splitCh '\x22' text.data).dropWhile (fun t => t != mvToken)).get? 2 with
  | some ver => .ok (String.mk ver)
  | none => .error .ParseError

/-- The extractor contract as the spec words it: treat the response as the
sequence of quote-delimited tokens, scan for the first token exactly equal
to `max_version`, and return the token two positions after it; if the field
name never appears, or fewer than two tokens follow it, fail. -/
def extractSpec {ε : Type} (text : String) : Except (Error ε) String :=
  let toks := splitCh '\x22' text.data
  match firstIdx (fun t => t == mvToken) toks with
  | some i =>
    match toks.get? (i + 2) with
    | some ver => .ok (String.mk ver)
    | none => .error .ParseError
  | none => .error .ParseError

/-- Modelled from the spec: the HTTP transport (the `reqwest` dependency,
not part of this repository) as an oracle — `get` maps a URL to a response
or a transport failure, `text` decodes a response body or fails.  `ρ` is
the response type and `ε` the opaque transport-error type. -/
structure Net (ρ ε : Type) where
  get : String → Except ε ρ
  text : ρ → Except ε String

/-- The request URL built by `web_req` in src/src/lib.rs:
`format!("https://crates.io/api/v1/crates/\x7b\x7d", crate_name)`. -/
def url (crate_name : String) : String :=
  "https://crates.io/api/v1/crates/" ++ crate_name

/-- Embeds `web_req` of src/src/lib.rs: issue the request for the fixed
URL, decode the body, and wrap either failure as `Error::RequestError`. -/
def web_req {ρ ε : Type} (net : Net ρ ε) (crate_name : String) :
    Except (Error ε) String :=
  match net.get (url crate_name) with
  | .error e => .error (.RequestError e)
  | .ok resp =>
    match net.text resp with
    | .error e => .error (.RequestError e)
    | .ok body => .ok body

/-- Embeds `get` of src/src/lib.rs:
`Version::parse(parse(&web_req(crate_name)?)?).map_err(SemVerError)`. -/
def get {ρ ε : Type} (net : Net ρ ε) (crate_name : String) :
    Except (Error ε) Version :=
  match web_req net crate_name with
  | .error e => .error e
  | .ok body =>
    match parse body with
    | .error e => .error e
    | .ok s =>
      match Version.parse s with
      | .error e => .error (.SemVerError e)
      | .ok v => .ok v

/-- Embeds `cmp` of src/src/lib.rs: classify `current.cmp(&cratesio)`,
putting the crates.io version in every payload. -/
def cmp (current : Version) (reg : Version) : Status :=
  match Version.cmp current reg with
  | .lt => .Behind reg
  | .eq => .Equal reg
  | .gt => .Ahead reg

/-- Embeds `query` of src/src/lib.rs: parse the caller's version string
first, then fetch and compare. -/
def query {ρ ε : Type} (net : Net ρ ε) (crate_name version : String) :
    Except (Error ε) Status :=
  match Version.parse version with
  | .error e => .error (.SemVerError e)
  | .ok current =>
    match get net crate_name with
    | .error e => .error e
    | .ok reg => .ok (cmp current reg)

/-- Modelled from the spec: one operation on the pluggable terminal sink
(the `linefeed::Terminal` dependency) — the sink accepts cursor motion,
clearing, and text. -/
inductive TermOp where
  | moveToFirstColumn
  | clearToScreenEnd
  | write (s : String)
deriving DecidableEq

/-- Display form of an identifier, as the `semver` crate renders it. -/
def Identifier.render : Identifier → String
  | .numeric n => Nat.repr n
  | .alphaNum s => String.mk s

/-- Dot-separated concatenation. -/
def joinDot : List String → String
  | [] => ""
  | [x] => x
  | x :: y :: r => x ++ "." ++ joinDot (y :: r)

/-- Modelled from the spec: the display form of a version,
`MAJOR.MINOR.PATCH[-PRERELEASE][+BUILD]`, used by the presenter's
format strings. -/
def Version.render (v : Version) : String :=
  Nat.repr v.major ++ "." ++ Nat.repr v.minor ++ "." ++ Nat.repr v.patch ++
    (if v.pre = [] then "" else "-" ++ joinDot (v.pre.map Identifier.render)) ++
    (if v.build = [] then "" else "+" ++ joinDot (v.build.map Identifier.render))

/-- Embeds the `print_line` construction of `output_with_term` in
src/src/lib.rs — the four format strings, with the ANSI colour styling
(`colored`) stripped, since it wraps but never alters the text. -/
def renderLine {ε : Type} (version : String) (res : Except (Error ε) Status) :
    String :=
  match res with
  | .ok (.Equal ver) => "Running the latest papyrus version " ++ ver.render
  | .ok (.Behind ver) =>
    "The current papyrus version " ++ version ++
      " is old, please update to " ++ ver.render
  | .ok (.Ahead ver) =>
    "The current papyrus version " ++ version ++
      " is ahead of the crates.io version " ++ ver.render
  | .error _ => "Failed to query crates.io"

/-- What one call of the presenter emits: the text printed to stdout and
the sequence of operations performed on the terminal sink. -/
structure OutputTrace where
  stdout : String
  term : List TermOp
deriving DecidableEq

/-- Embeds `output_with_term` of src/src/lib.rs: print the progress note to
stdout, build `print_line` from the query result, then
`overwrite_current_console_line` (move to first column, clear to screen
end, write the line) followed by `writeln!` of the line terminator. -/
def output_with_term {ρ ε : Type} (net : Net ρ ε) (crate_name version : String) :
    OutputTrace :=
  { stdout := "Checking for later version..."
    term := [TermOp.moveToFirstColumn, TermOp.clearToScreenEnd,
             TermOp.write (renderLine version (query net crate_name version)),
             TermOp.write "\n"] }

/-- A transport oracle answering every request with the given body. -/
def mkNet (body : String) : Net String String :=
  { get := fun _ => .ok "response", text := fun _ => .ok body }

/-- A transport oracle whose request step fails. -/
def netReqFail : Net String String :=
  { get := fun _ => .error "connection refused"
    text := fun _ => .error "unreachable" }

/-- A transport oracle whose body-decoding step fails. -/
def netTextFail : Net String String :=
  { get := fun _ => .ok "response", text := fun _ => .error "body decoding failed" }

/-- A transport oracle answering with a body lacking the version field. -/
def netNoField : Net String String := mkNet "no such field here"

/-- A transport oracle answering with a malformed version value. -/
def netBadVer : Net String String := mkNet "\"max_version\":\"0..2\""

/-- A transport oracle answering with version `2.1.0`. -/
def netGood : Net String String := mkNet "\"max_version\":\"2.1.0\""

/-! ### The extractor agrees with the spec's first-exact-token contract -/

theorem dropWhile_not_get? {α : Type} (p : α → Bool) (l : List α) (n : Nat) :
    (l.dropWhile (fun a => ! p a)).get? n =
      (firstIdx p l).bind (fun i => l.get? (i + n)) := by
  induction l with
  | nil => rfl
  | cons a t ih =>
    by_cases h : p a
    · simp [List.dropWhile_cons, firstIdx, h]
    · simp only [List.dropWhile_cons, firstIdx, h, Bool.not_false, if_neg, if_true,
        Bool.false_eq_true, ite_false, ih]
      cases hf : firstIdx p t with
      | none => rfl
      | some i =>
        simp only [Option.map_some', Option.bind_some, Option.some_bind]
        have : i + 1 + n = (i + n) + 1 := by omega
        rw [this, List.get?_cons_succ]

theorem parse_eq_spec_contract {ε : Type} (text : String) :
    (parse text : Except (Error ε) String) = extractSpec text := by
  have hp : (fun (t : List Char) => t != mvToken) = (fun t => ! (t == mvToken)) := rfl
  unfold parse extractSpec
  rw [hp, dropWhile_not_get? (fun t => t == mvToken) (splitCh '\x22' text.data) 2]
  cases hf : firstIdx (fun t => t == mvToken) (splitCh '\x22' text.data) with
  | none => simp [hf]
  | some i =>
    cases hg : (splitCh '\x22' text.data).get? (i + 2) <;> simp [hf, hg]

/-! ### Lawfulness of the version comparators -/

open Batteries

theorem listCmp_swap {α : Type} (f : α → α → Ordering)
    (hf : ∀ a b, (f a b).swap = f b a) :
    ∀ l m, (listCmp f l m).swap = listCmp f m l := by
  intro l
  induction l with
  | nil => intro m; cases m <;> rfl
  | cons a as ih =>
    intro m
    cases m with
    | nil => rfl
    | cons b bs => simp [listCmp, Ordering.swap_then, hf, ih]

instance listCmpOriented {α : Type} (f : α → α → Ordering) [i : OrientedCmp f] :
    OrientedCmp (listCmp f) where
  symm a b := listCmp_swap f i.symm a b

theorem listCmp_le_trans {α : Type} (f : α → α → Ordering) [TransCmp f] :
    ∀ x y z : List α,
      listCmp f x y ≠ .gt → listCmp f y z ≠ .gt → listCmp f x z ≠ .gt := by
  intro x
  induction x with
  | nil =>
    intro y z _ _
    cases z <;> simp [listCmp]
  | cons a as ih =>
    intro y z h1 h2
    cases y with
    | nil => exact absurd rfl h1
    | cons b bs =>
      cases z with
      | nil => exact absurd rfl h2
      | cons c cs =>
        simp only [listCmp, ne_eq, Ordering.then_eq_gt, not_or, not_and] at h1 h2 ⊢
        obtain ⟨hab, hab2⟩ := h1
        obtain ⟨hbc, hbc2⟩ := h2
        refine ⟨TransCmp.le_trans hab hbc, fun hac => ?_⟩
        have hab' : f a b = .eq := by
          cases he : f a b with
          | lt => rw [TransCmp.lt_le_trans he hbc] at hac; simp at hac
          | eq => rfl
          | gt => exact absurd he hab
        have hbc' : f b c = .eq := by
          cases he : f b c with
          | lt =>
            rw [TransCmp.cmp_congr_left hab', he] at hac
            simp at hac
          | eq => rfl
          | gt => exact absurd he hbc
        exact ih bs cs (hab2 hab') (hbc2 hbc')

instance listCmpTrans {α : Type} (f : α → α → Ordering) [TransCmp f] :
    TransCmp (listCmp f) where
  le_trans h1 h2 := listCmp_le_trans f _ _ _ h1 h2

theorem compare_swap_of_oriented {α : Type} [Ord α] [inst : OrientedOrd α]
    (m n : α) : (compare m n).swap = compare n m :=
  inst.symm m n

theorem Identifier.cmp_swap :
    ∀ a b : Identifier, (Identifier.cmp a b).swap = Identifier.cmp b a := by
  intro a b
  cases a with
  | numeric m =>
    cases b with
    | numeric n => exact compare_swap_of_oriented m n
    | alphaNum t => rfl
  | alphaNum s =>
    cases b with
    | numeric n => rfl
    | alphaNum t => exact listCmp_swap compare compare_swap_of_oriented s t

instance : OrientedCmp Identifier.cmp := ⟨Identifier.cmp_swap⟩

theorem Identifier.cmp_le_trans (x y z : Identifier)
    (h1 : Identifier.cmp x y ≠ .gt) (h2 : Identifier.cmp y z ≠ .gt) :
    Identifier.cmp x z ≠ .gt := by
  cases x <;> cases y <;> cases z <;>
    simp only [Identifier.cmp, ne_eq] at h1 h2 ⊢ <;>
    first
      | exact absurd True.intro h1
      | exact absurd True.intro h2
      | decide
      | exact TransCmp.le_trans h1 h2

instance : TransCmp Identifier.cmp where
  le_trans h1 h2 := Identifier.cmp_le_trans _ _ _ h1 h2

theorem preCmp_swap (a b : List Identifier) : (preCmp a b).swap = preCmp b a := by
  cases a with
  | nil => cases b <;> rfl
  | cons x xs =>
    cases b with
    | nil => rfl
    | cons y ys =>
      simp only [preCmp]
      exact listCmp_swap Identifier.cmp Identifier.cmp_swap _ _

instance : OrientedCmp preCmp := ⟨preCmp_swap⟩

theorem preCmp_le_trans (x y z : List Identifier)
    (h1 : preCmp x y ≠ .gt) (h2 : preCmp y z ≠ .gt) : preCmp x z ≠ .gt := by
  cases x with
  | nil =>
    cases y with
    | cons b bs => exact absurd rfl h1
    | nil =>
      cases z with
      | cons c cs => exact absurd rfl h2
      | nil => simp [preCmp]
  | cons a as =>
    cases z with
    | nil => simp [preCmp]
    | cons c cs =>
      cases y with
      | nil => exact absurd rfl h2
      | cons b bs =>
        simp only [preCmp] at h1 h2 ⊢
        exact listCmp_le_trans Identifier.cmp _ _ _ h1 h2

instance : TransCmp preCmp where
  le_trans h1 h2 := preCmp_le_trans _ _ _ h1 h2

theorem Version.cmp_eq_lex :
    Version.cmp = compareLex (Ordering.byKey Version.major compare)
      (compareLex (Ordering.byKey Version.minor compare)
        (compareLex (Ordering.byKey Version.patch compare)
          (Ordering.byKey Version.pre preCmp))) :=
  rfl

instance : TransCmp Version.cmp := by
  rw [Version.cmp_eq_lex]; exact inferInstance

/-! ### Claim theorems on the extractor and the classifier -/

/-- C1: for every input string, the extractor splits the text into
quote-delimited tokens, scans for a token exactly equal to the literal
field name `max_version`, and returns the token two positions after it; if
no token equals `max_version`, or fewer than two tokens follow it, it
returns `ParseFailure` (`Error::ParseError`) — in particular on
`no such field here`. -/
theorem extractor_matches_spec_contract :
    (∀ (ε : Type) (text : String),
      (parse text : Except (Error ε) String) = extractSpec text) ∧
    (parse "no such field here" : Except (Error Unit) String) =
      .error .ParseError := by
  exact ⟨fun ε text => parse_eq_spec_contract text, by decide⟩

/-- C2: `cmp` maps the three-way comparison of the current version against
the registry version to `Behind`/`Equal`/`Ahead` exactly as the spec
states, and in every case the payload carried by the `Status` is the
registry's version. -/
theorem cmp_classifies_compare (current reg : Version) :
    ((cmp current reg = .Behind reg ↔ Version.cmp current reg = .lt) ∧
     (cmp current reg = .Equal reg ↔ Version.cmp current reg = .eq) ∧
     (cmp current reg = .Ahead reg ↔ Version.cmp current reg = .gt)) ∧
    (cmp current reg = .Behind reg ∨ cmp current reg = .Equal reg ∨
      cmp current reg = .Ahead reg) := by
  cases h : Version.cmp current reg <;> simp [cmp, h]

/-- C5: the extractor returns the extracted token verbatim as a raw slice:
`"max_version":"0.4.2"` yields `0.4.2`, the malformed `"max_version":"0..2"`
yields `0..2` unchanged, and a JSON escape sequence inside the value (here
a literal backslash-n) passes through without un-escaping. -/
theorem extractor_returns_raw_slice_verbatim :
    (parse "\"max_version\":\"0.4.2\"" : Except (Error Unit) String) =
        .ok "0.4.2" ∧
    (parse "\"max_version\":\"0..2\"" : Except (Error Unit) String) =
        .ok "0..2" ∧
    (parse "\"max_version\":\"1.0.0+a\\nb\"" : Except (Error Unit) String) =
        .ok "1.0.0+a\\nb" := by
  exact ⟨by decide, by decide, by decide⟩

/-- C10: an occurrence of `max_version` embedded inside a longer
quote-delimited token does not trigger extraction (alone it yields
`ParseError`; alongside an exact token the exact token wins), while the
first exact-token occurrence — whether it stands as a JSON key or as a
JSON value — determines the returned substring. -/
theorem extractor_first_exact_token_occurrence :
    (parse "\"the max_version is big\"" : Except (Error Unit) String) =
        .error .ParseError ∧
    (parse "\"desc\":\"contains max_version inside\",\"max_version\":\"1.2.3\"" :
        Except (Error Unit) String) = .ok "1.2.3" ∧
    (parse "\"a\":\"max_version\",\"x\":\"y\"" : Except (Error Unit) String) =
        .ok "x" ∧
    (parse "\"max_version\":\"0.1.0\",\"max_version\":\"9.9.9\"" :
        Except (Error Unit) String) = .ok "0.1.0" := by
  exact ⟨by decide, by decide, by decide, by decide⟩

/-- C6: version comparison is a strict total order on parsed versions —
reflexively `eq`, antisymmetric (swapping the arguments swaps the
outcome), transitive (for the strict part and for equivalence), and two
versions equal in major.minor.patch and pre-release that differ only in
build metadata compare `eq`. -/
theorem version_cmp_strict_total_order :
    (∀ a : Version, Version.cmp a a = .eq) ∧
    (∀ a b : Version, (Version.cmp a b).swap = Version.cmp b a) ∧
    (∀ a b c : Version, Version.cmp a b = .lt → Version.cmp b c = .lt →
      Version.cmp a c = .lt) ∧
    (∀ a b c : Version, Version.cmp a b = .eq → Version.cmp b c = .eq →
      Version.cmp a c = .eq) ∧
    (∀ a b : Version, a.major = b.major → a.minor = b.minor →
      a.patch = b.patch → a.pre = b.pre → Version.cmp a b = .eq) := by
  refine ⟨fun a => OrientedCmp.cmp_refl,
    fun a b => OrientedCmp.symm a b,
    fun a b c h1 h2 => TransCmp.lt_trans h1 h2,
    fun a b c h1 h2 => by rw [TransCmp.cmp_congr_left h1]; exact h2,
    fun a b h1 h2 h3 h4 => ?_⟩
  have hn : ∀ n : Nat, compare n n = Ordering.eq := fun n => OrientedCmp.cmp_refl
  have hp : preCmp b.pre b.pre = Ordering.eq := OrientedCmp.cmp_refl
  unfold Version.cmp
  rw [h1, h2, h3, h4, hn, hn, hn, hp]
  rfl

/-- Closed instances of `version_cmp_strict_total_order`: transitivity at
`1.0.0 < 1.1.0 < 2.0.0`, and build-metadata-invariance at two versions
differing only in build metadata. -/
theorem version_cmp_strict_total_order_witness :
    Version.cmp ⟨1, 0, 0, [], []⟩ ⟨1, 1, 0, [], []⟩ = .lt ∧
    Version.cmp ⟨1, 1, 0, [], []⟩ ⟨2, 0, 0, [], []⟩ = .lt ∧
    Version.cmp ⟨1, 0, 0, [], []⟩ ⟨2, 0, 0, [], []⟩ = .lt ∧
    Version.cmp ⟨1, 0, 0, [], [.alphaNum ['a']]⟩ ⟨1, 0, 0, [], [.numeric 5]⟩ = .eq :=
  ⟨by decide, by decide,
    version_cmp_strict_total_order.2.2.1 ⟨1, 0, 0, [], []⟩ ⟨1, 1, 0, [], []⟩
      ⟨2, 0, 0, [], []⟩ (by decide) (by decide),
    version_cmp_strict_total_order.2.2.2.2 ⟨1, 0, 0, [], [.alphaNum ['a']]⟩
      ⟨1, 0, 0, [], [.numeric 5]⟩ rfl rfl rfl rfl⟩

/-! ### Claim theorems on the pipeline -/

/-- C3: `query` parses the caller's version string before performing any
network fetch — if the string is not a valid semantic version, every
transport oracle yields the same `SemVerError` result, so no network call
is observable. -/
theorem query_rejects_bad_version_before_network {ρ ε : Type} (net : Net ρ ε)
    (crate_name version : String) (e : SemVerError)
    (h : Version.parse version = .error e) :
    query net crate_name version = .error (.SemVerError e) := by
  simp [query, h]

/-- Closed instance of `query_rejects_bad_version_before_network` at the
invalid version `0..2`, over a transport whose every request fails — the
result is still the version-syntax error. -/
theorem query_rejects_bad_version_before_network_witness :
    Version.parse "0..2" = .error (.parseError "0..2") ∧
    query netReqFail "papyrus" "0..2" =
      .error (.SemVerError (.parseError "0..2")) :=
  ⟨by decide,
    query_rejects_bad_version_before_network netReqFail "papyrus" "0..2"
      (.parseError "0..2") (by decide)⟩

/-- C4: `get` performs fetch, then extract, then parse, in that order, and
propagates the first failure, short-circuiting the rest: a transport
failure (of the request or of body decoding) surfaces as `RequestError`,
an extraction failure surfaces as the extractor's `ParseError`, an invalid
extracted version surfaces as `SemVerError`, and otherwise the parsed
version is returned. -/
theorem get_pipeline_short_circuits {ρ ε : Type} (net : Net ρ ε) (n : String) :
    (∀ c, net.get (url n) = .error c →
      get net n = .error (.RequestError c)) ∧
    (∀ r c, net.get (url n) = .ok r → net.text r = .error c →
      get net n = .error (.RequestError c)) ∧
    (∀ body e, web_req net n = .ok body →
      (parse body : Except (Error ε) String) = .error e →
      get net n = .error e) ∧
    (∀ body s e, web_req net n = .ok body →
      (parse body : Except (Error ε) String) = .ok s →
      Version.parse s = .error e → get net n = .error (.SemVerError e)) ∧
    (∀ body s v, web_req net n = .ok body →
      (parse body : Except (Error ε) String) = .ok s →
      Version.parse s = .ok v → get net n = .ok v) := by
  refine ⟨?_, ?_, ?_, ?_, ?_⟩
  · intro c h; simp [get, web_req, h]
  · intro r c h1 h2; simp [get, web_req, h1, h2]
  · intro body e h1 h2; simp [get, h1, h2]
  · intro body s e h1 h2 h3; simp [get, h1, h2, h3]
  · intro body s v h1 h2 h3; simp [get, h1, h2, h3]

/-- Closed instances of `get_pipeline_short_circuits`, one per stage: a
failing request, a failing body decode, a body without the field, a body
with a malformed version, and a fully successful pipeline. -/
theorem get_pipeline_short_circuits_witness :
    get netReqFail "papyrus" = .error (.RequestError "connection refused") ∧
    get netTextFail "papyrus" = .error (.RequestError "body decoding failed") ∧
    get netNoField "papyrus" = .error .ParseError ∧
    get netBadVer "papyrus" = .error (.SemVerError (.parseError "0..2")) ∧
    get netGood "papyrus" = .ok ⟨2, 1, 0, [], []⟩ :=
  ⟨(get_pipeline_short_circuits netReqFail "papyrus").1
      "connection refused" (by decide),
   (get_pipeline_short_circuits netTextFail "papyrus").2.1
      "response" "body decoding failed" (by decide) (by decide),
   (get_pipeline_short_circuits netNoField "papyrus").2.2.1
      "no such field here" Error.ParseError (by decide) (by decide),
   (get_pipeline_short_circuits netBadVer "papyrus").2.2.2.1
      "\"max_version\":\"0..2\"" "0..2" (.parseError "0..2")
      (by decide) (by decide) (by decide),
   (get_pipeline_short_circuits netGood "papyrus").2.2.2.2
      "\"max_version\":\"2.1.0\"" "2.1.0" ⟨2, 1, 0, [], []⟩
      (by decide) (by decide) (by decide)⟩

/-- C8: the registry client builds the request URL by the fixed pattern
`https://crates.io/api/v1/crates/<crate_name>` — the name appended
verbatim, no escaping — and wraps any transport failure, of the request or
of body decoding, as `RequestError` carrying the underlying cause. -/
theorem web_req_url_and_request_error_wrapping {ρ ε : Type} (net : Net ρ ε)
    (n : String) :
    url n = "https://crates.io/api/v1/crates/" ++ n ∧
    (∀ c, net.get (url n) = .error c →
      web_req net n = .error (.RequestError c)) ∧
    (∀ r c, net.get (url n) = .ok r → net.text r = .error c →
      web_req net n = .error (.RequestError c)) ∧
    (∀ r body, net.get (url n) = .ok r → net.text r = .ok body →
      web_req net n = .ok body) := by
  refine ⟨rfl, ?_, ?_, ?_⟩
  · intro c h; simp [web_req, h]
  · intro r c h1 h2; simp [web_req, h1, h2]
  · intro r body h1 h2; simp [web_req, h1, h2]

/-- Closed instances of `web_req_url_and_request_error_wrapping`: the URL
built for `papyrus`, and the wrapping of a request failure and of a
body-decoding failure. -/
theorem web_req_url_and_request_error_wrapping_witness :
    url "papyrus" = "https://crates.io/api/v1/crates/papyrus" ∧
    web_req netReqFail "papyrus" = .error (.RequestError "connection refused") ∧
    web_req netTextFail "papyrus" =
      .error (.RequestError "body decoding failed") ∧
    web_req netGood "papyrus" = .ok "\"max_version\":\"2.1.0\"" :=
  ⟨by decide,
   (web_req_url_and_request_error_wrapping netReqFail "papyrus").2.1
      "connection refused" (by decide),
   (web_req_url_and_request_error_wrapping netTextFail "papyrus").2.2.1
      "response" "body decoding failed" (by decide) (by decide),
   (web_req_url_and_request_error_wrapping netGood "papyrus").2.2.2
      "response" "\"max_version\":\"2.1.0\"" (by decide) (by decide)⟩

/-! ### Claim theorems on the presenter -/

/-- C7: on every query failure the presenter is total — it renders the
single generic failure line `Failed to query crates.io`, with none of the
structured error detail, and returns its trace normally. -/
theorem presenter_failure_is_generic_and_total {ρ ε : Type} (net : Net ρ ε)
    (crate_name version : String) (e : Error ε)
    (h : query net crate_name version = .error e) :
    output_with_term net crate_name version =
      { stdout := "Checking for later version..."
        term := [TermOp.moveToFirstColumn, TermOp.clearToScreenEnd,
                 TermOp.write "Failed to query crates.io", TermOp.write "\n"] } := by
  simp [output_with_term, renderLine, h]

/-- Closed instance of `presenter_failure_is_generic_and_total` at a
transport that refuses the connection. -/
theorem presenter_failure_is_generic_and_total_witness :
    query netReqFail "papyrus" "1.0.0" =
      .error (.RequestError "connection refused") ∧
    output_with_term netReqFail "papyrus" "1.0.0" =
      { stdout := "Checking for later version..."
        term := [TermOp.moveToFirstColumn, TermOp.clearToScreenEnd,
                 TermOp.write "Failed to query crates.io", TermOp.write "\n"] } :=
  ⟨by decide,
    presenter_failure_is_generic_and_total netReqFail "papyrus" "1.0.0"
      (.RequestError "connection refused") (by decide)⟩

theorem lit_append_split (p mid q l R : String) (h : (p ++ mid) ++ q = l) :
    l ++ R = (p ++ mid) ++ (q ++ R) := by
  rw [← h, String.append_assoc]

/-- C9: the presenter's successful messages embed the fixed literal crate
name `papyrus` regardless of the crate name actually queried — two queries
of different crates with the same outcome render identical output, the
rendered line depends only on the outcome, and it contains `papyrus`. -/
theorem presenter_names_papyrus_not_queried_crate {ρ ε ρ' ε' : Type}
    (net : Net ρ ε) (net' : Net ρ' ε') (n n' v : String) (st : Status)
    (h : query net n v = .ok st) (h' : query net' n' v = .ok st) :
    output_with_term net n v = output_with_term net' n' v ∧
    (output_with_term net n v).term =
      [TermOp.moveToFirstColumn, TermOp.clearToScreenEnd,
       TermOp.write (renderLine v (Except.ok st : Except (Error ε) Status)),
       TermOp.write "\n"] ∧
    ∃ p q : String,
      renderLine v (Except.ok st : Except (Error ε) Status) =
        p ++ "papyrus" ++ q := by
  refine ⟨?_, ?_, ?_⟩
  · cases st <;> simp [output_with_term, h, h', renderLine]
  · simp [output_with_term, h]
  · cases st with
    | Equal ver =>
      refine ⟨"Running the latest ", " version " ++ ver.render, ?_⟩
      show "Running the latest papyrus version " ++ ver.render = _
      simp only [← String.append_assoc]
      rw [show (("Running the latest " ++ "papyrus") ++ " version " : String) =
        "Running the latest papyrus version " from by decide]
    | Behind ver =>
      refine ⟨"The current ",
        " version " ++ v ++ " is old, please update to " ++ ver.render, ?_⟩
      show "The current papyrus version " ++ v ++
          " is old, please update to " ++ ver.render = _
      simp only [← String.append_assoc]
      rw [show (("The current " ++ "papyrus") ++ " version " : String) =
        "The current papyrus version " from by decide]
    | Ahead ver =>
      refine ⟨"The current ",
        " version " ++ v ++ " is ahead of the crates.io version " ++ ver.render, ?_⟩
      show "The current papyrus version " ++ v ++
          " is ahead of the crates.io version " ++ ver.render = _
      simp only [← String.append_assoc]
      rw [show (("The current " ++ "papyrus") ++ " version " : String) =
        "The current papyrus version " from by decide]

/-- Closed instance of `presenter_names_papyrus_not_queried_crate`:
querying `papyrus` and querying `other-crate` over the same transport,
both up to date at `2.1.0`, render identical `papyrus`-naming output. -/
theorem presenter_names_papyrus_not_queried_crate_witness :
    query netGood "papyrus" "2.1.0" = .ok (.Equal ⟨2, 1, 0, [], []⟩) ∧
    query netGood "other-crate" "2.1.0" = .ok (.Equal ⟨2, 1, 0, [], []⟩) ∧
    (output_with_term netGood "papyrus" "2.1.0" =
        output_with_term netGood "other-crate" "2.1.0" ∧
      (output_with_term netGood "papyrus" "2.1.0").term =
        [TermOp.moveToFirstColumn, TermOp.clearToScreenEnd,
         TermOp.write (renderLine "2.1.0"
           (Except.ok (Status.Equal ⟨2, 1, 0, [], []⟩) :
             Except (Error String) Status)),
         TermOp.write "\n"] ∧
      ∃ p q : String,
        renderLine "2.1.0"
            (Except.ok (Status.Equal ⟨2, 1, 0, [], []⟩) :
              Except (Error String) Status) =
          p ++ "papyrus" ++ q) :=
  ⟨by decide, by decide,
    presenter_names_papyrus_not_queried_crate netGood netGood
      "papyrus" "other-crate" "2.1.0" (Status.Equal ⟨2, 1, 0, [], []⟩)
      (by decide) (by decide)⟩

end Cratesiover
